import Mathlib

/-!
Verification development for the EEG preparation pipeline
(`code_filterer.py` and `code_doctor.py`).

The filter engine (`apply_bandpass_filter`) is embedded shallowly:

* A sample value is an `EValue`: a finite rational, NaN, +inf or -inf.
  Rationals stand for the finite floating-point values; the claims under
  study are about control flow, sanitization and shape, not rounding.
* A recording is stored column-major: `List (List EValue)`, one inner
  list per channel (`data[:, channel]` in the source).
* The scipy routines `signal.butter`, `signal.filtfilt` and
  `signal.sosfilt` are external numeric kernels; they are modelled by a
  `FilterOracle`: deterministic, possibly failing (`Except Unit`)
  functions, length preserving on success (scipy's documented
  contract for `filtfilt`/`sosfilt`).  All theorems quantify over the
  oracle, so they hold for every deterministic behaviour of scipy.

The diagnostics engine (`code_doctor.py`) is embedded over a model of
pandas tables: a cell is a finite number, +inf, -inf, a missing value,
or a non-numeric text; a table is a row count plus named columns; a file
is an existence/readability/size record together with the outcome of
`pd.read_csv` for each candidate separator (`None` modelling a raised
exception).
-/

namespace EEG

/-- A float value as seen by `np.isfinite` / `np.nan_to_num`: a finite
number (modelled exactly as a rational) or one of the non-finite
values. -/
inductive EValue where
  | fin (q : ℚ)
  | nan
  | pinf
  | ninf

deriving instance DecidableEq for EValue

/-- `np.isfinite` on one value. -/
def isFiniteE : EValue → Bool
  | .fin _ => true
  | _ => false

/-- Elementwise `== 0` as numpy computes it: NaN and the infinities
compare unequal to zero. -/
def isZeroE : EValue → Bool
  | .fin q => q == 0
  | _ => false

/-- The rational carried by a finite value (junk 0 on non-finite input;
only ever applied to sanitized, hence finite, data). -/
def toQ : EValue → ℚ
  | .fin q => q
  | _ => 0

/-- `np.nan_to_num(v, nan=0.0, posinf=0.0, neginf=0.0)` on one value. -/
def nanToNum : EValue → EValue
  | .fin q => .fin q
  | _ => .fin 0

/-- `np.all(np.isfinite(data))` over the whole table. -/
def allFiniteTable (data : List (List EValue)) : Bool :=
  data.all (fun c => c.all isFiniteE)

/-- Lines 26-28 of `code_filterer.py`: if the table contains any
non-finite value, replace every non-finite entry by zero; otherwise the
data is left untouched. -/
def sanitize (data : List (List EValue)) : List (List EValue) :=
  if allFiniteTable data then data else data.map (fun c => c.map nanToNum)

/-- `data.size`: total number of elements of the array. -/
def sizeE (data : List (List EValue)) : ℕ :=
  (data.map List.length).sum

/-- `np.mean` of a channel (exact rational mean; `/ 0 = 0` on the empty
channel, which the engine never reaches because of the size guard). -/
def meanQ (l : List EValue) : ℚ :=
  (l.map toQ).sum / l.length

/-- Line 34: `low_norm = max(lowcut / nyquist, 0.001)`. -/
def lowNorm (lowcut samplingRate : ℚ) : ℚ :=
  max (lowcut / (samplingRate / 2)) (1/1000)

/-- Line 35: `high_norm = min(highcut / nyquist, 0.99)`. -/
def highNorm (highcut samplingRate : ℚ) : ℚ :=
  min (highcut / (samplingRate / 2)) (99/100)

/-- Transfer-function coefficients `(b, a)` returned by the band-pass
design; the engine only passes them between the numeric kernels. -/
def BA : Type := List ℚ × List ℚ

/-- Second-order-section coefficients returned by the high-pass design. -/
def SOS : Type := List (List ℚ)

/-- The scipy numeric kernels used by `apply_bandpass_filter` and
`check_filter_compatibility`.  `Except.error` models a raised exception.
On success, `filtfilt` and `sosfilt` return one output sample per input
sample. -/
structure FilterOracle where
  butter_bp : ℕ → ℚ → ℚ → Except Unit BA
  filtfilt : BA → List EValue → Except Unit (List EValue)
  butter_hp : ℕ → ℚ → Except Unit SOS
  sosfilt : SOS → List EValue → Except Unit (List EValue)
  filtfilt_len : ∀ ba xs ys, filtfilt ba xs = .ok ys → ys.length = xs.length
  sosfilt_len : ∀ s xs ys, sosfilt s xs = .ok ys → ys.length = xs.length

/-- Per-channel outcome tag (the spec's ChannelStatus). -/
inductive ChannelStatus where
  | filtered
  | fallback_highpass
  | passthrough_on_error

deriving instance DecidableEq for ChannelStatus

/-- File-level outcome of one `apply_bandpass_filter` run, matching the
four exits of the source: empty-data early return (line 23), invalid
frequency range (line 39), outer design failure (line 73), and the
normal per-channel loop (line 69). -/
inductive FilterOutcome where
  | emptyInput
  | invalidRange
  | designFailed
  | perChannel (statuses : List ChannelStatus)

deriving instance DecidableEq for FilterOutcome

/-- Line 56 acceptance test:
`np.all(np.isfinite(fc)) and not np.all(fc == 0)`. -/
def acceptCond (l : List EValue) : Bool :=
  l.all isFiniteE && !(l.all isZeroE)

/-- Lines 50: the mean-removed channel
(`channel_data = data[:, channel] - np.mean(data[:, channel])`). -/
def channelInput (col : List EValue) : List EValue :=
  col.map (fun v => EValue.fin (toQ v - meanQ col))

/-- Lines 48-67, the body of the per-channel loop, instrumented with the
status tag.  `col` is the (sanitized) channel; the mean is removed, the
shared band-pass is applied zero-phase; an accepted result must be fully
finite and not identically zero, otherwise a 2nd-order high-pass at
`low_norm` is designed and applied to the same mean-removed channel; any
exception inside the loop body falls back to copying `col` unchanged. -/
def processChannelS (O : FilterOracle) (ba : BA) (low_norm : ℚ)
    (col : List EValue) : List EValue × ChannelStatus :=
  let channel_data := channelInput col
  match O.filtfilt ba channel_data with
  | .ok fc =>
      if acceptCond fc then (fc, .filtered)
      else
        match O.butter_hp 2 low_norm with
        | .ok sos =>
            match O.sosfilt sos channel_data with
            | .ok r => (r, .fallback_highpass)
            | .error _ => (col, .passthrough_on_error)
        | .error _ => (col, .passthrough_on_error)
  | .error _ => (col, .passthrough_on_error)

/-- `apply_bandpass_filter` (lines 6-73), instrumented with the
file-level outcome and per-channel status list.  Branch order follows
the source: size guard, sanitization, normalized bounds with clamping,
range check, shared band-pass design (order capped at 4), then the
independent per-channel loop. -/
def applyBandpassFilterS (O : FilterOracle) (data : List (List EValue))
    (lowcut highcut samplingRate : ℚ) (order : ℕ) :
    List (List EValue) × FilterOutcome :=
  if sizeE data = 0 then (data, .emptyInput)
  else
    let sdata := sanitize data
    let ln := lowNorm lowcut samplingRate
    let hn := highNorm highcut samplingRate
    if hn ≤ ln then (sdata, .invalidRange)
    else
      match O.butter_bp (min order 4) ln hn with
      | .error _ => (sdata, .designFailed)
      | .ok ba =>
          let results := sdata.map (processChannelS O ba ln)
          (results.map Prod.fst, .perChannel (results.map Prod.snd))

/-- The array actually returned by `apply_bandpass_filter`. -/
def applyBandpassFilter (O : FilterOracle) (data : List (List EValue))
    (lowcut highcut samplingRate : ℚ) (order : ℕ) : List (List EValue) :=
  (applyBandpassFilterS O data lowcut highcut samplingRate order).1

/-- A loaded CSV: column names plus column-major data, as
`process_eeg_file` sees it after `pd.read_csv`. -/
structure Frame where
  names : List String
  data : List (List EValue)

/-- In-memory part of `process_eeg_file` (lines 89-104): filter with the
default SamplingSpec and re-attach the original column names. -/
def processEEGFile (O : FilterOracle) (f : Frame) : Frame :=
  { names := f.names
    data := applyBandpassFilter O f.data (1/2) 40 250 4 }

/-! ## Diagnostics engine (`code_doctor.py`) -/

/-- A pandas cell after `read_csv`: a finite number, an infinity, a
missing value (NaN), or a non-numeric text entry. -/
inductive Cell where
  | num (q : ℚ)
  | pinf
  | ninf
  | missing
  | text (s : String)

deriving instance DecidableEq for Cell

/-- `Series.isna()` on one cell. -/
def isNA : Cell → Bool
  | .missing => true
  | _ => false

/-- Whether a cell is a non-numeric text entry. -/
def isTextCell : Cell → Bool
  | .text _ => true
  | _ => false

/-- `pd.to_numeric(-, errors=coerce)` on one cell: unparseable text
becomes NaN, everything else is already numeric. -/
def coerceCell : Cell → Cell
  | .text _ => .missing
  | c => c

/-- A valid numeric cell viewed as a float, for handing to the filter
kernels in `check_filter_compatibility`. -/
def cellToE : Cell → EValue
  | .num q => .fin q
  | .pinf => .pinf
  | .ninf => .ninf
  | _ => .nan

/-- `pd.api.types.is_numeric_dtype` of a parsed column: pandas infers a
numeric dtype exactly when no cell is unparseable text. -/
def isNumericDtype (col : List Cell) : Bool :=
  col.all (fun c => !(isTextCell c))

/-- `np.isinf` on one cell. -/
def isInfCell : Cell → Bool
  | .pinf => true
  | .ninf => true
  | _ => false

/-- `abs(v) > 10000` on a valid (non-missing) cell; the absolute value
of an infinity exceeds any threshold.  (Junk false on missing/text,
which never occur after `dropna`.) -/
def absGT10000 : Cell → Bool
  | .num q => 10000 < |q|
  | .pinf => true
  | .ninf => true
  | _ => false

/-- Numeric order on valid cells, `-inf < finite < +inf`.  (Junk on
missing/text, which never occur after `dropna`.) -/
def cellLe : Cell → Cell → Bool
  | .ninf, _ => true
  | _, .pinf => true
  | .num a, .num b => a ≤ b
  | _, _ => false

/-- `Series.max()` over the valid cells of a column. -/
def listMaxCell : List Cell → Cell
  | [] => .missing
  | c :: rest => rest.foldl (fun a b => if cellLe a b then b else a) c

/-- `Series.min()` over the valid cells of a column. -/
def listMinCell : List Cell → Cell
  | [] => .missing
  | c :: rest => rest.foldl (fun a b => if cellLe a b then a else b) c

/-- `Series.std() == 0` on a list of valid cells: the sample standard
deviation compares equal to zero exactly when all values are equal and
finite (any infinity makes the deviation NaN, which is not zero). -/
def stdZero : List Cell → Bool
  | [] => false
  | c :: rest =>
      (match c with | .num _ => true | _ => false) && rest.all (· == c)

/-- A parsed table: `pd.read_csv` output with its row count and the
named columns in order.  pandas guarantees every column has `nrows`
entries; the embedding carries the row count explicitly. -/
structure Table where
  nrows : ℕ
  cols : List (String × List Cell)

deriving instance DecidableEq for Table

/-- `df.shape[1]`. -/
def Table.ncols (t : Table) : ℕ := t.cols.length

/-- `df.empty`: true when either axis has length 0. -/
def tableEmpty (t : Table) : Bool :=
  t.nrows == 0 || t.ncols == 0

/-- The candidate field delimiters. -/
inductive Sep where
  | semi
  | comma
  | tab

deriving instance DecidableEq for Sep

/-- The fixed priority order of line 37: `[';', ',', '\t']`. -/
def candidateSeps : List Sep := [Sep.semi, Sep.comma, Sep.tab]

/-- Position of a separator in the priority order. -/
def sepIndex : Sep → ℕ
  | .semi => 0
  | .comma => 1
  | .tab => 2

/-- A file on disk as the doctor observes it: existence, readability,
byte size, and the outcome of `pd.read_csv` under each separator, both
with `nrows=5` (the sniffing read) and in full.  `none` models a raised
parse exception. -/
structure EFile where
  present : Bool
  readable : Bool
  size : ℕ
  parse5 : Sep → Option Table
  parse : Sep → Option Table

/-- Problems reported by `check_file_access`.  The messages are modelled
as constructors; `AccessProblem.notExist` renders as
`File does not exist` and `AccessProblem.notReadable` is the only
message containing the text `not readable`. -/
inductive AccessProblem where
  | notExist
  | notReadable
  | empty
  | verySmall (bytes : ℕ)

deriving instance DecidableEq for AccessProblem

/-- `check_file_access` (lines 7-29): missing files return immediately;
otherwise the readability flag and then the size flags (`0` bytes, else
under `100` bytes) are appended. -/
def checkFileAccess (f : EFile) : List AccessProblem :=
  if f.present = false then [.notExist]
  else
    (if f.readable = false then [.notReadable] else []) ++
    (if f.size = 0 then [.empty]
     else if f.size < 100 then [.verySmall f.size] else [])

/-- Problems reported by `check_csv_format`. -/
inductive FormatProblem where
  | cannotParse
  | wrongSep (s : Sep)
  | readFailed
  | noDataRows
  | tooFewCols (n : ℕ)
  | notNineteen (n : ℕ)
  | dupCols

deriving instance DecidableEq for FormatProblem

/-- Lines 41-49: try each candidate separator in order, keep the first
whose (5-row) parse yields more than one column; parses that raise are
skipped, parses with at most one column do not stop the loop. -/
def trySeps (parse : Sep → Option Table) : List Sep → Option (Sep × Table)
  | [] => none
  | s :: rest =>
      match parse s with
      | some df => if 1 < df.ncols then some (s, df) else trySeps parse rest
      | none => trySeps parse rest

/-- Whether a name list contains a duplicate
(`df.columns.duplicated().any()`). -/
def hasDup : List String → Bool
  | [] => false
  | x :: xs => xs.contains x || hasDup xs

/-- `check_csv_format` (lines 31-81).  If no candidate separator gives
more than one column the single cannot-parse problem is returned.
Otherwise the wrong-separator warning is recorded first; then the file
is re-read in full with the winning separator (a raise there reaches
the enclosing handler with the warning already recorded), and the
structural flags are appended in source order. -/
def checkCsvFormat (f : EFile) : List FormatProblem :=
  match trySeps f.parse5 candidateSeps with
  | none => [.cannotParse]
  | some (sep, _) =>
      let warn := if sep ≠ Sep.semi then [FormatProblem.wrongSep sep] else []
      match f.parse sep with
      | none => warn ++ [.readFailed]
      | some df =>
          warn ++
          (if df.nrows = 0 then [FormatProblem.noDataRows] else []) ++
          (if df.ncols < 2 then [FormatProblem.tooFewCols df.ncols] else []) ++
          (if df.ncols ≠ 19 then [FormatProblem.notNineteen df.ncols] else []) ++
          (if hasDup (df.cols.map Prod.fst) then [FormatProblem.dupCols] else [])

/-- Lines 92-98 (and the identical loop of lines 173-179): full-read
separator probing.  `df` keeps the most recent successful parse, so if
no separator yields more than one column the result is the last
successful single-column parse, and only if every parse raises is the
result `none`. -/
def contentSniff (parse : Sep → Option Table) : List Sep → Option Table → Option Table
  | [], acc => acc
  | s :: rest, acc =>
      match parse s with
      | some df => if 1 < df.ncols then some df else contentSniff parse rest (some df)
      | none => contentSniff parse rest acc

/-- Problems reported by `check_data_content`. -/
inductive ContentProblem where
  | cannotRead
  | emptyTable
  | nonNumeric (col : String) (n : ℕ)
  | entirelyNaN (col : String)
  | mostlyNaN (col : String) (pct : ℚ)
  | zeroVariance (col : String) (v : Cell)
  | extremeValues (col : String) (lo hi : Cell)
  | infiniteValues (col : String)
  | lowNumericFraction (numeric cells : ℕ)
  | fewRows (n : ℕ)

deriving instance DecidableEq for ContentProblem

/-- The numeric view of a column (lines 114-121): an already numeric
dtype is used as is, otherwise the column is coerced cell by cell. -/
def numericView (col : List Cell) : List Cell :=
  if isNumericDtype col then col else col.map coerceCell

/-- The valid data of a column: the numeric view with missing values
dropped (`numeric_col.dropna()`). -/
def validCells (col : List Cell) : List Cell :=
  (numericView col).filter (fun c => !(isNA c))

/-- Lines 110-146, the per-column body of `check_data_content`.  Flags
are produced in source order: the non-numeric count first; then, if the
numeric view is entirely missing, the single entirely-NaN flag and
nothing else for this column; otherwise the missing-ratio, zero-variance
(guarded by more than one valid value), extreme-value and
infinite-value flags. -/
def colContentProblems (name : String) (col : List Cell) : List ContentProblem :=
  let numeric_col := numericView col
  let nonNumFlags :=
    if isNumericDtype col then []
    else
      let cnt := numeric_col.countP isNA - col.countP isNA
      if 0 < cnt then [ContentProblem.nonNumeric name cnt] else []
  if numeric_col.all isNA then nonNumFlags ++ [ContentProblem.entirelyNaN name]
  else
    let pct := ((numeric_col.countP isNA : ℚ) / (numeric_col.length : ℚ)) * 100
    let valid := validCells col
    nonNumFlags ++
    (if 50 < pct then [ContentProblem.mostlyNaN name pct] else []) ++
    (if 1 < valid.length ∧ stdZero valid = true then
        [ContentProblem.zeroVariance name (valid.headD Cell.missing)] else []) ++
    (if 0 < valid.length then
        (if absGT10000 (listMaxCell valid) || absGT10000 (listMinCell valid) then
            [ContentProblem.extremeValues name (listMinCell valid) (listMaxCell valid)]
         else []) ++
        (if valid.any isInfCell then [ContentProblem.infiniteValues name] else [])
     else [])

/-- Lines 149-150: count of non-missing cells over the numeric-dtype
columns (`df.select_dtypes(include=[np.number]).count().sum()`). -/
def totalNumeric (t : Table) : ℕ :=
  (t.cols.map (fun c =>
    if isNumericDtype c.2 then c.2.countP (fun x => !(isNA x)) else 0)).sum

/-- `check_data_content` (lines 83-162): separator probing, the
empty-table guard, the per-column checks in column order, then the two
global flags (numeric fraction under 80%, fewer than 100 rows). -/
def checkDataContent (f : EFile) : List ContentProblem :=
  match contentSniff f.parse candidateSeps none with
  | none => [.cannotRead]
  | some df =>
      if tableEmpty df then [.emptyTable]
      else
        (df.cols.map (fun c => colContentProblems c.1 c.2)).flatten ++
        (if (totalNumeric df : ℚ) < ((df.nrows * df.ncols : ℕ) : ℚ) * (4/5) then
            [ContentProblem.lowNumericFraction (totalNumeric df) (df.nrows * df.ncols)]
         else []) ++
        (if df.nrows < 100 then [ContentProblem.fewRows df.nrows] else [])

/-- Problems reported by `check_filter_compatibility`. -/
inductive CompatProblem where
  | cannotRead
  | insufficientData
  | boundsExceedNyquist
  | lowGeHigh
  | designError
  | filterFails (col : String)
  | allZeros (col : String)
  | producesNonFinite (col : String)

deriving instance DecidableEq for CompatProblem

/-- Number of rows surviving `numeric_df.dropna()`: rows in which no
column holds a missing value. -/
def countValidRows (nrows : ℕ) (cols : List (String × List Cell)) : ℕ :=
  ((List.range nrows).filter (fun i =>
    cols.all (fun c => !(isNA ((c.2.getD i Cell.missing)))))).length

/-- `check_filter_compatibility` (lines 164-239): separator probing,
whole-table numeric coercion, the 50-valid-row guard, the hardcoded
parameter range checks, the order-4 band-pass design (a raise appends
the design error after any range flags), and the zero-phase test on the
first up-to-100 valid samples of the first up-to-3 columns, flagging a
per-column raise, an all-zero output, or a non-finite output. -/
def checkFilterCompatibility (O : FilterOracle) (f : EFile) : List CompatProblem :=
  match contentSniff f.parse candidateSeps none with
  | none => [.cannotRead]
  | some df =>
      let numeric := df.cols.map (fun c => (c.1, c.2.map coerceCell))
      if countValidRows df.nrows numeric < 50 then [.insufficientData]
      else
        let ln : ℚ := (1/2) / ((250 : ℚ) / 2)
        let hn : ℚ := (40 : ℚ) / ((250 : ℚ) / 2)
        let rangeFlags :=
          (if 1 ≤ ln ∨ 1 ≤ hn then [CompatProblem.boundsExceedNyquist] else []) ++
          (if hn ≤ ln then [CompatProblem.lowGeHigh] else [])
        match O.butter_bp 4 ln hn with
        | .error _ => rangeFlags ++ [.designError]
        | .ok ba =>
            rangeFlags ++
            ((numeric.take 3).map (fun c =>
              let col_data := c.2.filter (fun x => !(isNA x))
              if 50 ≤ col_data.length then
                match O.filtfilt ba ((col_data.take 100).map cellToE) with
                | .error _ => [CompatProblem.filterFails c.1]
                | .ok fs =>
                    if fs.all isZeroE then [CompatProblem.allZeros c.1]
                    else if !(fs.all isFiniteE) then
                      [CompatProblem.producesNonFinite c.1]
                    else []
              else [])).flatten

/-- A categorized diagnostic entry (the `ACCESS:`/`FORMAT:`/`CONTENT:`/
`FILTER:` message prefixes of `diagnose_eeg_file`). -/
inductive Problem where
  | access (p : AccessProblem)
  | format (p : FormatProblem)
  | content (p : ContentProblem)
  | filterCompat (p : CompatProblem)

deriving instance DecidableEq for Problem

/-- `diagnose_eeg_file` (lines 241-296).  Access problems come first;
the run short-circuits after them exactly when the access list contains
the does-not-exist message or a message containing `not readable`
(lines 255-257); otherwise the format, content and filter-compatibility
problems are appended in that order. -/
def diagnoseEEGFile (O : FilterOracle) (f : EFile) : List Problem :=
  let aps := checkFileAccess f
  let acc := aps.map Problem.access
  if AccessProblem.notExist ∈ aps ∨ AccessProblem.notReadable ∈ aps then acc
  else
    acc ++ (checkCsvFormat f).map Problem.format ++
    (checkDataContent f).map Problem.content ++
    (checkFilterCompatibility O f).map Problem.filterCompat

/-! ## Concrete kernel behaviours and files used by witnesses and
counterexamples -/

/-- A kernel behaviour in which the band-pass returns an all-zero signal
(as it does on a zero input channel) and the fallback high-pass returns
NaN (a numerical overflow). -/
def oracleZeroBPNaNHP : FilterOracle where
  butter_bp := fun _ _ _ => .ok (([] : List ℚ), ([] : List ℚ))
  filtfilt := fun _ xs => .ok (xs.map fun _ => .fin 0)
  butter_hp := fun _ _ => .ok ([] : SOS)
  sosfilt := fun _ xs => .ok (xs.map fun _ => .nan)
  filtfilt_len := by intro ba xs ys h; cases h; simp
  sosfilt_len := by intro s xs ys h; cases h; simp

/-- A kernel behaviour in which the band-pass is the identity and the
fallback high-pass returns zeros; every fallback output is finite. -/
def oracleIdBPZeroHP : FilterOracle where
  butter_bp := fun _ _ _ => .ok (([] : List ℚ), ([] : List ℚ))
  filtfilt := fun _ xs => .ok xs
  butter_hp := fun _ _ => .ok ([] : SOS)
  sosfilt := fun _ xs => .ok (xs.map fun _ => .fin 0)
  filtfilt_len := by intro ba xs ys h; cases h; rfl
  sosfilt_len := by intro s xs ys h; cases h; simp

/-- A kernel behaviour in which every filter design raises. -/
def oracleNoDesign : FilterOracle where
  butter_bp := fun _ _ _ => .error ()
  filtfilt := fun _ _ => .error ()
  butter_hp := fun _ _ => .error ()
  sosfilt := fun _ _ => .error ()
  filtfilt_len := by intro ba xs ys h; cases h
  sosfilt_len := by intro s xs ys h; cases h

/-- A one-channel recording of 100 zero samples. -/
def dataHundredZeros : List (List EValue) := [List.replicate 100 (EValue.fin 0)]

/-- A one-channel recording of 100 unit samples. -/
def dataHundredOnes : List (List EValue) := [List.replicate 100 (EValue.fin 1)]

/-- An existing, readable, 0-byte file; every parse attempt raises. -/
def fileEmptyOnDisk : EFile :=
  { present := true, readable := true, size := 0
    parse5 := fun _ => none, parse := fun _ => none }

/-- A file that does not exist. -/
def fileMissing : EFile :=
  { present := false, readable := true, size := 5
    parse5 := fun _ => none, parse := fun _ => none }

/-- A two-column table with no data rows. -/
def tableTwoCols : Table := { nrows := 0, cols := [(("a"), []), (("b"), [])] }

/-- A file that parses only under the comma separator (two columns):
the semicolon parse raises and the tab parse raises. -/
def fileCommaOnly : EFile :=
  { present := true, readable := true, size := 500
    parse5 := fun s => match s with | .comma => some tableTwoCols | _ => none
    parse := fun s => match s with | .comma => some tableTwoCols | _ => none }

/-! ## Helper lemmas -/

theorem isFiniteE_nanToNum (v : EValue) : isFiniteE (nanToNum v) = true := by
  cases v <;> rfl

theorem nanToNum_of_finite (v : EValue) (h : isFiniteE v = true) : nanToNum v = v := by
  cases v <;> simp_all [isFiniteE, nanToNum]

theorem nanToNum_of_nonfinite (v : EValue) (h : isFiniteE v = false) :
    nanToNum v = EValue.fin 0 := by
  cases v <;> simp_all [isFiniteE, nanToNum]

theorem map_eq_self_of_eq {α : Type} (l : List α) (f : α → α)
    (h : ∀ x ∈ l, f x = x) : l.map f = l := by
  induction l with
  | nil => rfl
  | cons a t ih =>
      simp only [List.map_cons]
      rw [h a (by simp), ih (fun x hx => h x (by simp [hx]))]

theorem sanitize_eq_map (d : List (List EValue)) :
    sanitize d = d.map (fun c => c.map nanToNum) := by
  unfold sanitize
  split
  · next h =>
      unfold allFiniteTable at h
      rw [List.all_eq_true] at h
      refine (map_eq_self_of_eq d _ ?_).symm
      intro c hc
      refine map_eq_self_of_eq c _ ?_
      intro v hv
      have := h c hc
      rw [List.all_eq_true] at this
      exact nanToNum_of_finite v (by simpa using this v hv)
  · rfl

theorem allFiniteTable_sanitize (d : List (List EValue)) :
    allFiniteTable (sanitize d) = true := by
  rw [sanitize_eq_map]
  unfold allFiniteTable
  rw [List.all_eq_true]
  intro c hc
  rw [List.mem_map] at hc
  obtain ⟨c0, _, rfl⟩ := hc
  simp only [List.all_eq_true, List.mem_map]
  rintro v ⟨v0, _, rfl⟩
  simpa using isFiniteE_nanToNum v0

theorem sanitize_length (d : List (List EValue)) :
    (sanitize d).length = d.length := by
  rw [sanitize_eq_map]; simp

theorem sanitize_col_length (d : List (List EValue)) (i : ℕ) :
    ((sanitize d)[i]?).map List.length = (d[i]?).map List.length := by
  rw [sanitize_eq_map, List.getElem?_map]
  cases d[i]? <;> simp

theorem sizeE_sanitize (d : List (List EValue)) : sizeE (sanitize d) = sizeE d := by
  rw [sanitize_eq_map]
  unfold sizeE
  rw [List.map_map]
  simp only [Function.comp_def, List.length_map]

theorem sanitize_of_sizeE_zero (d : List (List EValue)) (h : sizeE d = 0) :
    sanitize d = d := by
  have hfin : allFiniteTable d = true := by
    unfold sizeE at h
    unfold allFiniteTable
    rw [List.all_eq_true]
    intro c hc
    have hc0 : c.length = 0 := by
      rw [List.sum_eq_zero_iff] at h
      exact h _ (List.mem_map_of_mem _ hc)
    rw [List.length_eq_zero] at hc0
    subst hc0
    rfl
  unfold sanitize
  rw [if_pos hfin]

theorem channelInput_length (col : List EValue) :
    (channelInput col).length = col.length := by
  simp [channelInput]

theorem processChannelS_fst_length (O : FilterOracle) (ba : BA) (low : ℚ)
    (col : List EValue) : ((processChannelS O ba low col).1).length = col.length := by
  unfold processChannelS
  cases hff : O.filtfilt ba (channelInput col) with
  | error e => simp [hff]
  | ok fc =>
      have hfc : fc.length = col.length :=
        (O.filtfilt_len _ _ _ hff).trans (channelInput_length col)
      by_cases hacc : acceptCond fc = true
      · simp [hff, hacc, hfc]
      · cases hhp : O.butter_hp 2 low with
        | error e => simp [hff, hacc, hhp]
        | ok sos =>
            cases hsf : O.sosfilt sos (channelInput col) with
            | error e => simp [hff, hacc, hhp, hsf]
            | ok r =>
                have hr : r.length = col.length :=
                  (O.sosfilt_len _ _ _ hsf).trans (channelInput_length col)
                simp [hff, hacc, hhp, hsf, hr]

theorem processChannelS_fst_allFinite (O : FilterOracle) (ba : BA) (low : ℚ)
    (col : List EValue) (hcol : col.all isFiniteE = true)
    (hfall : ∀ sos xs ys, O.sosfilt sos xs = .ok ys → ys.all isFiniteE = true) :
    ((processChannelS O ba low col).1).all isFiniteE = true := by
  unfold processChannelS
  cases hff : O.filtfilt ba (channelInput col) with
  | error e => simpa [hff] using hcol
  | ok fc =>
      by_cases hacc : acceptCond fc = true
      · have : fc.all isFiniteE = true := by
          unfold acceptCond at hacc
          exact ((Bool.and_eq_true _ _).mp hacc).1
        simpa [hff, hacc] using this
      · cases hhp : O.butter_hp 2 low with
        | error e => simpa [hff, hacc, hhp] using hcol
        | ok sos =>
            cases hsf : O.sosfilt sos (channelInput col) with
            | error e => simpa [hff, hacc, hhp, hsf] using hcol
            | ok r => simpa [hff, hacc, hhp, hsf] using hfall _ _ _ hsf

/-! ## Claims about the filter engine -/

/-- C5: before any filtering is attempted, `apply_bandpass_filter`
sanitizes the whole table elementwise: finite values are kept, every
non-finite value (NaN, +inf, -inf) becomes zero, and the resulting
table — the data the filtering stage consumes — contains only finite
values. -/
theorem c5_sanitize_replaces_nonfinite_with_zero (data : List (List EValue)) :
    sanitize data = data.map (fun c => c.map nanToNum) ∧
    (∀ v, isFiniteE v = true → nanToNum v = v) ∧
    (∀ v, isFiniteE v = false → nanToNum v = EValue.fin 0) ∧
    allFiniteTable (sanitize data) = true :=
  ⟨sanitize_eq_map data, nanToNum_of_finite, nanToNum_of_nonfinite,
    allFiniteTable_sanitize data⟩

/-- C3: whenever the clamped normalized bounds satisfy
`low_norm >= high_norm` — which holds in particular whenever
`lowcut >= highcut` (for a positive sampling rate) — the engine filters
no channel: it returns the sanitized-but-unfiltered table, and (for a
non-empty recording) reports the invalid-range outcome for the whole
file rather than any per-channel outcome. -/
theorem c3_invalid_range_returns_sanitized_input (O : FilterOracle)
    (data : List (List EValue)) (lowcut highcut samplingRate : ℚ) (order : ℕ) :
    (0 < samplingRate → highcut ≤ lowcut →
        highNorm highcut samplingRate ≤ lowNorm lowcut samplingRate) ∧
    (highNorm highcut samplingRate ≤ lowNorm lowcut samplingRate →
      applyBandpassFilter O data lowcut highcut samplingRate order = sanitize data ∧
      (sizeE data ≠ 0 →
        (applyBandpassFilterS O data lowcut highcut samplingRate order).2 =
          FilterOutcome.invalidRange)) := by
  constructor
  · intro hsr hlh
    have hny : (0:ℚ) < samplingRate / 2 := by positivity
    have h1 : highNorm highcut samplingRate ≤ highcut / (samplingRate / 2) :=
      min_le_left _ _
    have h2 : highcut / (samplingRate / 2) ≤ lowcut / (samplingRate / 2) := by
      gcongr
    have h3 : lowcut / (samplingRate / 2) ≤ lowNorm lowcut samplingRate :=
      le_max_left _ _
    exact le_trans h1 (le_trans h2 h3)
  · intro h
    by_cases hs : sizeE data = 0
    · refine ⟨?_, fun hs' => absurd hs hs'⟩
      simp [applyBandpassFilter, applyBandpassFilterS, hs,
        sanitize_of_sizeE_zero data hs]
    · refine ⟨?_, fun _ => ?_⟩ <;>
        simp [applyBandpassFilter, applyBandpassFilterS, hs, h]

/-- C9: if designing the shared band-pass filter itself raises, the
engine returns the entire sanitized table unchanged, and the
per-channel outcome list (hence the per-channel fallback chain) is
never produced. -/
theorem c9_design_failure_returns_sanitized_input (O : FilterOracle)
    (data : List (List EValue)) (lowcut highcut samplingRate : ℚ) (order : ℕ)
    (hd : O.butter_bp (min order 4) (lowNorm lowcut samplingRate)
        (highNorm highcut samplingRate) = .error ()) :
    applyBandpassFilter O data lowcut highcut samplingRate order = sanitize data ∧
    ∀ statuses, (applyBandpassFilterS O data lowcut highcut samplingRate order).2 ≠
      FilterOutcome.perChannel statuses := by
  by_cases hs : sizeE data = 0
  · refine ⟨?_, fun statuses => ?_⟩ <;>
      simp [applyBandpassFilter, applyBandpassFilterS, hs,
        sanitize_of_sizeE_zero data hs]
  · by_cases hr : highNorm highcut samplingRate ≤ lowNorm lowcut samplingRate
    · refine ⟨?_, fun statuses => ?_⟩ <;>
        simp [applyBandpassFilter, applyBandpassFilterS, hs, hr]
    · refine ⟨?_, fun statuses => ?_⟩ <;>
        simp [applyBandpassFilter, applyBandpassFilterS, hs, hr, hd]

/-- C9 witness: with a kernel whose band-pass design always raises, a
concrete one-channel recording is returned whole (sanitized) and gets
no per-channel outcome. -/
theorem c9_design_failure_witness :
    applyBandpassFilter oracleNoDesign dataHundredOnes (1/2) 40 250 4 =
        sanitize dataHundredOnes ∧
    ∀ statuses, (applyBandpassFilterS oracleNoDesign dataHundredOnes (1/2) 40 250 4).2 ≠
      FilterOutcome.perChannel statuses :=
  c9_design_failure_returns_sanitized_input oracleNoDesign dataHundredOnes
    (1/2) 40 250 4 rfl

/-- C8: the engine is deterministic, and its result — the output array
together with the file-level outcome and every per-channel status
(which fallback branch each channel took) — depends only on the
sanitized input and the four parameters: two inputs with the same
sanitization give bit-identical results. -/
theorem c8_deterministic_on_sanitized_input (O : FilterOracle)
    (lowcut highcut samplingRate : ℚ) (order : ℕ)
    (d₁ d₂ : List (List EValue)) (h : sanitize d₁ = sanitize d₂) :
    applyBandpassFilterS O d₁ lowcut highcut samplingRate order =
      applyBandpassFilterS O d₂ lowcut highcut samplingRate order := by
  have hsz : sizeE d₁ = sizeE d₂ := by
    rw [← sizeE_sanitize d₁, h, sizeE_sanitize]
  by_cases hs : sizeE d₁ = 0
  · have hs2 : sizeE d₂ = 0 := by rw [← hsz]; exact hs
    have : d₁ = d₂ := by
      rw [← sanitize_of_sizeE_zero d₁ hs, h, sanitize_of_sizeE_zero d₂ hs2]
    rw [this]
  · have hs2 : ¬ sizeE d₂ = 0 := by rw [← hsz]; exact hs
    unfold applyBandpassFilterS
    rw [if_neg hs, if_neg hs2, h]

/-- C8 witness: two distinct raw inputs (a NaN sample and a +inf
sample) sanitize to the same table and produce bit-identical runs. -/
theorem c8_deterministic_witness :
    applyBandpassFilterS oracleZeroBPNaNHP [[EValue.nan]] (1/2) 40 250 4 =
      applyBandpassFilterS oracleZeroBPNaNHP [[EValue.pinf]] (1/2) 40 250 4 :=
  c8_deterministic_on_sanitized_input oracleZeroBPNaNHP (1/2) 40 250 4
    [[EValue.nan]] [[EValue.pinf]] (by decide)

/-- C2: per-channel processing.  If the zero-phase band-pass output of
the mean-removed channel is fully finite and not identically zero it is
accepted (`filtered`); otherwise the lower-order high-pass at `low_norm`
is designed and applied to the mean-removed channel
(`fallback_highpass`); if any design or application step raises, the
sanitized original channel is copied unchanged
(`passthrough_on_error`).  Moreover each channel of the assembled output
is exactly its own channel's independent result, so no channel's
exception aborts the remaining channels or the file. -/
theorem c2_per_channel_fallback_chain (O : FilterOracle) (ba : BA) (low : ℚ)
    (col : List EValue) :
    (∀ fc, O.filtfilt ba (channelInput col) = .ok fc → acceptCond fc = true →
        processChannelS O ba low col = (fc, ChannelStatus.filtered)) ∧
    (∀ fc sos r, O.filtfilt ba (channelInput col) = .ok fc →
        acceptCond fc = false → O.butter_hp 2 low = .ok sos →
        O.sosfilt sos (channelInput col) = .ok r →
        processChannelS O ba low col = (r, ChannelStatus.fallback_highpass)) ∧
    (∀ fc, O.filtfilt ba (channelInput col) = .ok fc → acceptCond fc = false →
        (O.butter_hp 2 low = .error () ∨
          ∃ sos, O.butter_hp 2 low = .ok sos ∧
            O.sosfilt sos (channelInput col) = .error ()) →
        processChannelS O ba low col = (col, ChannelStatus.passthrough_on_error)) ∧
    (O.filtfilt ba (channelInput col) = .error () →
        processChannelS O ba low col = (col, ChannelStatus.passthrough_on_error)) ∧
    (∀ (data : List (List EValue)) (lc hc sr : ℚ) (ord : ℕ) out statuses,
        applyBandpassFilterS O data lc hc sr ord =
          (out, FilterOutcome.perChannel statuses) →
        ∃ ba2, O.butter_bp (min ord 4) (lowNorm lc sr) (highNorm hc sr) = .ok ba2 ∧
          out.length = (sanitize data).length ∧
          ∀ (i : ℕ), out[i]? = ((sanitize data)[i]?).map
            (fun c => (processChannelS O ba2 (lowNorm lc sr) c).1)) := by
  refine ⟨?_, ?_, ?_, ?_, ?_⟩
  · intro fc h1 h2
    simp [processChannelS, h1, h2]
  · intro fc sos r h1 h2 h3 h4
    simp [processChannelS, h1, h2, h3, h4]
  · intro fc h1 h2 h3
    rcases h3 with h3 | ⟨sos, h3, h4⟩
    · simp [processChannelS, h1, h2, h3]
    · simp [processChannelS, h1, h2, h3, h4]
  · intro h1
    simp [processChannelS, h1]
  · intro data lc hc sr ord out statuses h
    unfold applyBandpassFilterS at h
    by_cases hs : sizeE data = 0
    · rw [if_pos hs] at h
      simp at h
    · rw [if_neg hs] at h
      by_cases hr : highNorm hc sr ≤ lowNorm lc sr
      · simp [hr] at h
      · cases hb : O.butter_bp (min ord 4) (lowNorm lc sr) (highNorm hc sr) with
        | error e =>
            simp [hr, hb] at h
        | ok ba2 =>
            simp only [hr, if_neg, if_false, hb] at h
            rw [Prod.mk.injEq] at h
            obtain ⟨hout, _⟩ := h
            refine ⟨ba2, rfl, ?_, ?_⟩
            · rw [← hout]; simp
            · intro i
              rw [← hout, List.map_map, List.getElem?_map]
              rfl

/-! ## C1: shape, column names, and finiteness of the output -/

theorem lowNorm_default_eval : lowNorm (1/2) 250 = 1/250 := by
  unfold lowNorm
  rw [show ((1:ℚ)/2) / ((250:ℚ)/2) = 1/250 by norm_num,
    max_eq_left (by norm_num : (1:ℚ)/1000 ≤ 1/250)]

theorem highNorm_default_eval : highNorm 40 250 = 8/25 := by
  unfold highNorm
  rw [show ((40:ℚ)) / ((250:ℚ)/2) = 8/25 by norm_num,
    min_eq_left (by norm_num : (8:ℚ)/25 ≤ 99/100)]

theorem channelInput_hundred_zeros :
    channelInput (List.replicate 100 (EValue.fin 0)) =
      List.replicate 100 (EValue.fin 0) := by
  have hmean : meanQ (List.replicate 100 (EValue.fin 0)) = 0 := by
    unfold meanQ
    rw [List.map_replicate]
    simp [toQ]
  unfold channelInput
  rw [hmean, List.map_replicate]
  simp [toQ]

theorem processChannelS_zeros_eval :
    processChannelS oracleZeroBPNaNHP (([], []) : BA) (1/250)
        (List.replicate 100 (EValue.fin 0)) =
      (List.replicate 100 EValue.nan, ChannelStatus.fallback_highpass) := by
  have hacc : acceptCond (List.replicate 100 (EValue.fin 0)) = false := by
    unfold acceptCond
    have hz : (List.replicate 100 (EValue.fin 0)).all isZeroE = true := by
      rw [List.all_eq_true]
      intro v hv
      rw [List.eq_of_mem_replicate hv]
      simp [isZeroE]
    rw [hz]
    simp
  unfold processChannelS
  rw [channelInput_hundred_zeros]
  simp only [oracleZeroBPNaNHP, List.map_replicate, hacc, Bool.false_eq_true, if_false]

theorem c1_run_eval :
    applyBandpassFilter oracleZeroBPNaNHP dataHundredZeros (1/2) 40 250 4 =
      [List.replicate 100 EValue.nan] := by
  have hsize : sizeE dataHundredZeros = 100 := by
    simp [sizeE, dataHundredZeros]
  have hfin : allFiniteTable dataHundredZeros = true := by decide
  have hsan : sanitize dataHundredZeros = dataHundredZeros := by
    unfold sanitize
    rw [if_pos hfin]
  unfold applyBandpassFilter applyBandpassFilterS
  rw [if_neg (by rw [hsize]; norm_num)]
  simp only [hsan, lowNorm_default_eval, highNorm_default_eval]
  rw [if_neg (by norm_num : ¬ ((8:ℚ)/25 ≤ 1/250))]
  show ([(processChannelS oracleZeroBPNaNHP (([], []) : BA) (1/250)
      (List.replicate 100 (EValue.fin 0)))].map Prod.fst, FilterOutcome.perChannel _).1 =
    [List.replicate 100 EValue.nan]
  rw [processChannelS_zeros_eval]
  rfl

/-- C1 counterexample: a one-channel recording of 100 finite samples
(all zero) for which the returned table contains non-finite values.
The channel is constant, so after mean removal the band-pass output is
identically zero; the engine then stores the fallback high-pass output
without re-checking finiteness, and a fallback output of NaNs (a
numeric overflow in the high-pass application) reaches the result.  The
claim's finiteness guarantee therefore fails as stated. -/
theorem c1_counterexample :
    (∀ c ∈ dataHundredZeros, 100 ≤ c.length) ∧
    allFiniteTable dataHundredZeros = true ∧
    ¬ ((applyBandpassFilter oracleZeroBPNaNHP dataHundredZeros (1/2) 40 250 4).all
        (fun c => c.all isFiniteE) = true) := by
  refine ⟨?_, by decide, ?_⟩
  · intro c hc
    have : c = List.replicate 100 (EValue.fin 0) := by
      simpa [dataHundredZeros] using hc
    rw [this]
    simp
  · rw [c1_run_eval]
    decide

/-- C1 (amended): for every recording with at least 100 rows and no
non-finite values — and in fact for every recording — the output has
identical shape to the input (same channel count, same per-channel
length, no channel dropped or reordered) and the persisted result keeps
the input's column names; and provided every fallback high-pass
application returns only finite values (the engine does not re-check
this), every output value is finite. -/
theorem c1_shape_names_finiteness (O : FilterOracle) (data : List (List EValue))
    (lowcut highcut samplingRate : ℚ) (order : ℕ)
    (_hrows : ∀ c ∈ data, 100 ≤ c.length)
    (hfin : allFiniteTable data = true)
    (hfall : ∀ sos xs ys, O.sosfilt sos xs = .ok ys → ys.all isFiniteE = true) :
    (applyBandpassFilter O data lowcut highcut samplingRate order).length =
        data.length ∧
    (∀ (i : ℕ),
        ((applyBandpassFilter O data lowcut highcut samplingRate order)[i]?).map
            List.length = (data[i]?).map List.length) ∧
    (applyBandpassFilter O data lowcut highcut samplingRate order).all
        (fun c => c.all isFiniteE) = true ∧
    (∀ names, (processEEGFile O { names := names, data := data }).names = names) := by
  have hnames : ∀ names : List String,
      (processEEGFile O { names := names, data := data }).names = names :=
    fun _ => rfl
  by_cases hs : sizeE data = 0
  · have heq : applyBandpassFilter O data lowcut highcut samplingRate order = data := by
      simp [applyBandpassFilter, applyBandpassFilterS, hs]
    exact ⟨by rw [heq], fun i => by rw [heq], by rw [heq]; exact hfin, hnames⟩
  · by_cases hr : highNorm highcut samplingRate ≤ lowNorm lowcut samplingRate
    · have heq : applyBandpassFilter O data lowcut highcut samplingRate order =
          sanitize data := by
        simp [applyBandpassFilter, applyBandpassFilterS, hs, hr]
      exact ⟨by rw [heq]; exact sanitize_length data,
        fun i => by rw [heq]; exact sanitize_col_length data i,
        by rw [heq]; exact allFiniteTable_sanitize data, hnames⟩
    · cases hb : O.butter_bp (min order 4) (lowNorm lowcut samplingRate)
          (highNorm highcut samplingRate) with
      | error e =>
          have heq : applyBandpassFilter O data lowcut highcut samplingRate order =
              sanitize data := by
            simp [applyBandpassFilter, applyBandpassFilterS, hs, hr, hb]
          exact ⟨by rw [heq]; exact sanitize_length data,
            fun i => by rw [heq]; exact sanitize_col_length data i,
            by rw [heq]; exact allFiniteTable_sanitize data, hnames⟩
      | ok ba =>
          have hout : applyBandpassFilter O data lowcut highcut samplingRate order =
              (sanitize data).map
                (fun c => (processChannelS O ba (lowNorm lowcut samplingRate) c).1) := by
            simp only [applyBandpassFilter, applyBandpassFilterS, if_neg hs,
              if_neg hr, hb, List.map_map]
            rfl
          refine ⟨?_, ?_, ?_, hnames⟩
          · rw [hout, List.length_map]; exact sanitize_length data
          · intro i
            rw [hout, List.getElem?_map]
            have hcl := sanitize_col_length data i
            cases hsd : (sanitize data)[i]? with
            | none =>
                rw [hsd] at hcl
                cases hd : data[i]? with
                | none => simp
                | some c0 => rw [hd] at hcl; simp at hcl
            | some c =>
                rw [hsd] at hcl
                cases hd : data[i]? with
                | none => rw [hd] at hcl; simp at hcl
                | some c0 =>
                    rw [hd] at hcl
                    simp at hcl ⊢
                    rw [processChannelS_fst_length]
                    exact hcl
          · rw [hout, List.all_eq_true]
            intro x hx
            rw [List.mem_map] at hx
            obtain ⟨c, hc, rfl⟩ := hx
            have hcf : c.all isFiniteE = true := by
              have := allFiniteTable_sanitize data
              unfold allFiniteTable at this
              rw [List.all_eq_true] at this
              simpa using this c hc
            simpa using processChannelS_fst_allFinite O ba _ c hcf hfall

/-- C1 witness: a concrete run under a kernel whose fallback outputs
are always finite, on a 100-row finite recording, yields an all-finite
output. -/
theorem c1_shape_names_finiteness_witness :
    (applyBandpassFilter oracleIdBPZeroHP dataHundredOnes (1/2) 40 250 4).all
        (fun c => c.all isFiniteE) = true :=
  (c1_shape_names_finiteness oracleIdBPZeroHP dataHundredOnes (1/2) 40 250 4
    (by intro c hc
        have : c = List.replicate 100 (EValue.fin 1) := by
          simpa [dataHundredOnes] using hc
        rw [this]; simp)
    (by decide)
    (by intro sos xs ys h
        cases h
        rw [List.all_eq_true]
        intro v hv
        rw [List.mem_map] at hv
        obtain ⟨v0, _, rfl⟩ := hv
        rfl)).2.2.1

/-! ## Claims about the diagnostics engine -/

theorem isTextCell_eq_false_of_isNA (c : Cell) (h : isNA c = true) :
    isTextCell c = false := by
  cases c <;> simp_all [isNA, isTextCell]

/-- C6: a column containing only missing values gets exactly one
content flag — the entirely-NaN flag — and none of the further
per-column checks (missing ratio, zero variance, extreme values,
infinite values) is evaluated for it. -/
theorem c6_entirely_missing_column (name : String) (col : List Cell)
    (h : col.all isNA = true) :
    colContentProblems name col = [ContentProblem.entirelyNaN name] := by
  have hdt : isNumericDtype col = true := by
    unfold isNumericDtype
    rw [List.all_eq_true] at h ⊢
    intro c hc
    simp [isTextCell_eq_false_of_isNA c (by simpa using h c hc)]
  simp [colContentProblems, numericView, hdt, h]

/-- C6 witness: a concrete all-missing column yields exactly the one
flag. -/
theorem c6_entirely_missing_column_witness :
    colContentProblems (("ch0")) [Cell.missing, Cell.missing] =
      [ContentProblem.entirelyNaN (("ch0"))] :=
  c6_entirely_missing_column (("ch0")) [Cell.missing, Cell.missing] (by decide)

/-- C10: the zero-variance flag is produced only for columns with more
than one valid (non-missing) value; in particular a column with exactly
one valid sample is never flagged for zero variance, although its valid
data is trivially constant. -/
theorem c10_zero_variance_needs_two_valid (name : String) (col : List Cell) :
    (∀ v, ContentProblem.zeroVariance name v ∈ colContentProblems name col →
        1 < (validCells col).length) ∧
    ((validCells col).length = 1 →
        ∀ v, ContentProblem.zeroVariance name v ∉ colContentProblems name col) := by
  have key : ∀ v, ContentProblem.zeroVariance name v ∈ colContentProblems name col →
      1 < (validCells col).length := by
    intro v hv
    simp only [colContentProblems] at hv
    split_ifs at hv <;> simp_all
  exact ⟨key, fun hlen v hv => by have := key v hv; omega⟩

/-- C10 witness: a column with exactly one valid sample gets no
zero-variance flag. -/
theorem c10_zero_variance_needs_two_valid_witness :
    ContentProblem.zeroVariance (("ch1")) (Cell.num 5) ∉
      colContentProblems (("ch1")) [Cell.num 5, Cell.missing] :=
  (c10_zero_variance_needs_two_valid (("ch1")) [Cell.num 5, Cell.missing]).2
    (by decide) (Cell.num 5)

/-- C4 counterexample: an existing, readable, 0-byte file.  Its access
check reports only the empty-file problem, which does not match the
short-circuit test (only the does-not-exist and not-readable messages
do), so the structural, content, and filter checks still run — the
diagnosis is not access-only, contradicting the claim for empty
files. -/
theorem c4_counterexample :
    fileEmptyOnDisk.size = 0 ∧ fileEmptyOnDisk.present = true ∧
    fileEmptyOnDisk.readable = true ∧
    Problem.format FormatProblem.cannotParse ∈
      diagnoseEEGFile oracleZeroBPNaNHP fileEmptyOnDisk ∧
    diagnoseEEGFile oracleZeroBPNaNHP fileEmptyOnDisk ≠
      (checkFileAccess fileEmptyOnDisk).map Problem.access := by
  refine ⟨rfl, rfl, rfl, ?_, ?_⟩ <;> decide

/-- C4 (amended): if the diagnosed file is missing or unreadable,
`diagnose_eeg_file` returns immediately with only the access-category
problems; no structural, content, or filter-compatibility checks are
run.  (An empty — 0-byte — file reports its access problem but does not
short-circuit: the remaining checks still run, see the
counterexample.) -/
theorem c4_access_short_circuit (O : FilterOracle) (f : EFile)
    (h : f.present = false ∨ f.readable = false) :
    diagnoseEEGFile O f = (checkFileAccess f).map Problem.access := by
  have hmem : AccessProblem.notExist ∈ checkFileAccess f ∨
      AccessProblem.notReadable ∈ checkFileAccess f := by
    rcases h with h | h
    · left
      simp [checkFileAccess, h]
    · by_cases hp : f.present = false
      · left
        simp [checkFileAccess, hp]
      · right
        simp [checkFileAccess, hp, h]
  simp [diagnoseEEGFile, hmem]

/-- C4 witness: diagnosing a concrete missing file returns only its
access problems. -/
theorem c4_access_short_circuit_witness :
    diagnoseEEGFile oracleZeroBPNaNHP fileMissing =
      (checkFileAccess fileMissing).map Problem.access :=
  c4_access_short_circuit oracleZeroBPNaNHP fileMissing (Or.inl rfl)

/-! ## C7: delimiter priority in the structural checks -/

theorem trySeps_none_iff (parse : Sep → Option Table) (l : List Sep) :
    trySeps parse l = none ↔
      ∀ s ∈ l, ∀ t, parse s = some t → t.ncols ≤ 1 := by
  induction l with
  | nil => simp [trySeps]
  | cons s rest ih =>
      cases hp : parse s with
      | none =>
          simp only [trySeps, hp, ih]
          constructor
          · intro hr s' hs' t ht
            rcases List.mem_cons.mp hs' with rfl | hs'
            · rw [hp] at ht; cases ht
            · exact hr s' hs' t ht
          · intro hr s' hs' t ht
            exact hr s' (List.mem_cons_of_mem _ hs') t ht
      | some df =>
          by_cases hw : 1 < df.ncols
          · simp only [trySeps, hp, if_pos hw]
            constructor
            · intro hcontra; cases hcontra
            · intro hr
              have := hr s (List.mem_cons_self _ _) df hp
              omega
          · simp only [trySeps, hp, if_neg hw, ih]
            constructor
            · intro hr s' hs' t ht
              rcases List.mem_cons.mp hs' with rfl | hs'
              · rw [hp] at ht
                cases ht
                omega
              · exact hr s' hs' t ht
            · intro hr s' hs' t ht
              exact hr s' (List.mem_cons_of_mem _ hs') t ht

theorem wrongSep_mem_checkCsvFormat (f : EFile) (s : Sep) (t : Table)
    (htry : trySeps f.parse5 candidateSeps = some (s, t)) :
    (FormatProblem.wrongSep s ∈ checkCsvFormat f ↔ s ≠ Sep.semi) := by
  unfold checkCsvFormat
  rw [htry]
  by_cases hs : s = Sep.semi
  · subst hs
    simp only [ne_eq, not_true_eq_false, iff_false]
    cases hp : f.parse Sep.semi with
    | none => simp
    | some df => split_ifs <;> simp_all
  · simp only [ne_eq, hs, not_false_eq_true, iff_true, if_pos hs]
    cases hp : f.parse s with
    | none => simp [hs]
    | some df => simp [hs]

/-- C7: the structural checks try the candidate delimiters in the fixed
priority order semicolon, comma, tab; the winner is the first whose
5-row parse has more than one column, every earlier candidate having
failed or parsed narrow; a wrong-separator warning is recorded exactly
when the winner is not the semicolon; and when no candidate parses wide
the structural checks report exactly the single cannot-parse problem
and stop. -/
theorem c7_delimiter_priority (f : EFile) :
    (trySeps f.parse5 candidateSeps = none →
       (∀ s ∈ candidateSeps, ∀ t, f.parse5 s = some t → t.ncols ≤ 1) ∧
       checkCsvFormat f = [FormatProblem.cannotParse]) ∧
    (∀ s t, trySeps f.parse5 candidateSeps = some (s, t) →
       f.parse5 s = some t ∧ 1 < t.ncols ∧
       (∀ s' t', sepIndex s' < sepIndex s → f.parse5 s' = some t' → t'.ncols ≤ 1) ∧
       (FormatProblem.wrongSep s ∈ checkCsvFormat f ↔ s ≠ Sep.semi)) := by
  constructor
  · intro hnone
    refine ⟨(trySeps_none_iff f.parse5 candidateSeps).mp hnone, ?_⟩
    unfold checkCsvFormat
    rw [hnone]
  · intro s t htry
    have hmem := wrongSep_mem_checkCsvFormat f s t htry
    unfold candidateSeps at htry
    cases h1 : f.parse5 Sep.semi with
    | some df1 =>
        by_cases hw1 : 1 < df1.ncols
        · rw [show trySeps f.parse5 [Sep.semi, Sep.comma, Sep.tab] =
              some (Sep.semi, df1) by simp [trySeps, h1, hw1]] at htry
          obtain ⟨rfl, rfl⟩ : Sep.semi = s ∧ df1 = t := by
            simpa [Prod.ext_iff] using htry
          refine ⟨h1, hw1, ?_, hmem⟩
          intro s' t' hlt _
          cases s' <;> simp [sepIndex] at hlt
        · have hstep : trySeps f.parse5 [Sep.semi, Sep.comma, Sep.tab] =
              trySeps f.parse5 [Sep.comma, Sep.tab] := by
            simp [trySeps, h1, hw1]
          rw [hstep] at htry
          have hfirst : ∀ t', f.parse5 Sep.semi = some t' → t'.ncols ≤ 1 := by
            intro t' ht'
            rw [h1] at ht'
            cases ht'
            omega
          cases h2 : f.parse5 Sep.comma with
          | some df2 =>
              by_cases hw2 : 1 < df2.ncols
              · rw [show trySeps f.parse5 [Sep.comma, Sep.tab] =
                    some (Sep.comma, df2) by simp [trySeps, h2, hw2]] at htry
                obtain ⟨rfl, rfl⟩ : Sep.comma = s ∧ df2 = t := by
                  simpa [Prod.ext_iff] using htry
                refine ⟨h2, hw2, ?_, hmem⟩
                intro s' t' hlt ht'
                cases s' <;> simp [sepIndex] at hlt <;> exact hfirst t' ht'
              · have hstep2 : trySeps f.parse5 [Sep.comma, Sep.tab] =
                    trySeps f.parse5 [Sep.tab] := by
                  simp [trySeps, h2, hw2]
                rw [hstep2] at htry
                have hsecond : ∀ t', f.parse5 Sep.comma = some t' → t'.ncols ≤ 1 := by
                  intro t' ht'
                  rw [h2] at ht'
                  cases ht'
                  omega
                cases h3 : f.parse5 Sep.tab with
                | some df3 =>
                    by_cases hw3 : 1 < df3.ncols
                    · rw [show trySeps f.parse5 [Sep.tab] = some (Sep.tab, df3) by
                          simp [trySeps, h3, hw3]] at htry
                      obtain ⟨rfl, rfl⟩ : Sep.tab = s ∧ df3 = t := by
                        simpa [Prod.ext_iff] using htry
                      refine ⟨h3, hw3, ?_, hmem⟩
                      intro s' t' hlt ht'
                      cases s' <;> simp [sepIndex] at hlt
                      · exact hfirst t' ht'
                      · exact hsecond t' ht'
                    · rw [show trySeps f.parse5 [Sep.tab] = none by
                          simp [trySeps, h3, hw3]] at htry
                      cases htry
                | none =>
                    rw [show trySeps f.parse5 [Sep.tab] = none by
                        simp [trySeps, h3]] at htry
                    cases htry
          | none =>
              have hstep2 : trySeps f.parse5 [Sep.comma, Sep.tab] =
                  trySeps f.parse5 [Sep.tab] := by
                simp [trySeps, h2]
              rw [hstep2] at htry
              have hsecond : ∀ t', f.parse5 Sep.comma = some t' → t'.ncols ≤ 1 := by
                intro t' ht'
                rw [h2] at ht'
                cases ht'
              cases h3 : f.parse5 Sep.tab with
              | some df3 =>
                  by_cases hw3 : 1 < df3.ncols
                  · rw [show trySeps f.parse5 [Sep.tab] = some (Sep.tab, df3) by
                        simp [trySeps, h3, hw3]] at htry
                    obtain ⟨rfl, rfl⟩ : Sep.tab = s ∧ df3 = t := by
                      simpa [Prod.ext_iff] using htry
                    refine ⟨h3, hw3, ?_, hmem⟩
                    intro s' t' hlt ht'
                    cases s' <;> simp [sepIndex] at hlt
                    · exact hfirst t' ht'
                    · exact hsecond t' ht'
                  · rw [show trySeps f.parse5 [Sep.tab] = none by
                        simp [trySeps, h3, hw3]] at htry
                    cases htry
              | none =>
                  rw [show trySeps f.parse5 [Sep.tab] = none by
                      simp [trySeps, h3]] at htry
                  cases htry
    | none =>
        have hstep : trySeps f.parse5 [Sep.semi, Sep.comma, Sep.tab] =
            trySeps f.parse5 [Sep.comma, Sep.tab] := by
          simp [trySeps, h1]
        rw [hstep] at htry
        have hfirst : ∀ t', f.parse5 Sep.semi = some t' → t'.ncols ≤ 1 := by
          intro t' ht'
          rw [h1] at ht'
          cases ht'
        cases h2 : f.parse5 Sep.comma with
        | some df2 =>
            by_cases hw2 : 1 < df2.ncols
            · rw [show trySeps f.parse5 [Sep.comma, Sep.tab] =
                  some (Sep.comma, df2) by simp [trySeps, h2, hw2]] at htry
              obtain ⟨rfl, rfl⟩ : Sep.comma = s ∧ df2 = t := by
                simpa [Prod.ext_iff] using htry
              refine ⟨h2, hw2, ?_, hmem⟩
              intro s' t' hlt ht'
              cases s' <;> simp [sepIndex] at hlt <;> exact hfirst t' ht'
            · have hstep2 : trySeps f.parse5 [Sep.comma, Sep.tab] =
                  trySeps f.parse5 [Sep.tab] := by
                simp [trySeps, h2, hw2]
              rw [hstep2] at htry
              have hsecond : ∀ t', f.parse5 Sep.comma = some t' → t'.ncols ≤ 1 := by
                intro t' ht'
                rw [h2] at ht'
                cases ht'
                omega
              cases h3 : f.parse5 Sep.tab with
              | some df3 =>
                  by_cases hw3 : 1 < df3.ncols
                  · rw [show trySeps f.parse5 [Sep.tab] = some (Sep.tab, df3) by
                        simp [trySeps, h3, hw3]] at htry
                    obtain ⟨rfl, rfl⟩ : Sep.tab = s ∧ df3 = t := by
                      simpa [Prod.ext_iff] using htry
                    refine ⟨h3, hw3, ?_, hmem⟩
                    intro s' t' hlt ht'
                    cases s' <;> simp [sepIndex] at hlt
                    · exact hfirst t' ht'
                    · exact hsecond t' ht'
                  · rw [show trySeps f.parse5 [Sep.tab] = none by
                        simp [trySeps, h3, hw3]] at htry
                    cases htry
              | none =>
                  rw [show trySeps f.parse5 [Sep.tab] = none by
                      simp [trySeps, h3]] at htry
                  cases htry
        | none =>
            have hstep2 : trySeps f.parse5 [Sep.comma, Sep.tab] =
                trySeps f.parse5 [Sep.tab] := by
              simp [trySeps, h2]
            rw [hstep2] at htry
            have hsecond : ∀ t', f.parse5 Sep.comma = some t' → t'.ncols ≤ 1 := by
              intro t' ht'
              rw [h2] at ht'
              cases ht'
            cases h3 : f.parse5 Sep.tab with
            | some df3 =>
                by_cases hw3 : 1 < df3.ncols
                · rw [show trySeps f.parse5 [Sep.tab] = some (Sep.tab, df3) by
                      simp [trySeps, h3, hw3]] at htry
                  obtain ⟨rfl, rfl⟩ : Sep.tab = s ∧ df3 = t := by
                    simpa [Prod.ext_iff] using htry
                  refine ⟨h3, hw3, ?_, hmem⟩
                  intro s' t' hlt ht'
                  cases s' <;> simp [sepIndex] at hlt
                  · exact hfirst t' ht'
                  · exact hsecond t' ht'
                · rw [show trySeps f.parse5 [Sep.tab] = none by
                      simp [trySeps, h3, hw3]] at htry
                  cases htry
            | none =>
                rw [show trySeps f.parse5 [Sep.tab] = none by
                    simp [trySeps, h3]] at htry
                cases htry

end EEG
